import Mathlib

/-!
Formal model of the schulmanager-api scraping pipeline.

The development shallowly embeds the TypeScript sources:
- the week-anchor computation `getMondayOfWeek` of SchulmanagerService,
- the timetable extraction and normalization (`getWeekSchedule`, `getTimetable`),
- the substitution derivation (`getSubstitutions`, `SubstitutionModel.fromScrapedData`),
- the in-memory cache (`CacheService`),
- the login path (`login` / `performLogin`) and its single-flight behaviour.

Calendar dates are modelled as the integer number of days since the Unix
epoch (1970-01-01, a Thursday), so JS `Date.prototype.getDay` (0 = Sunday)
becomes `(d + 4) mod 7`.  JS `Date.prototype.setDate` arithmetic normalises
day-of-month overflow, so on day counts it is plain integer addition.
-/

namespace Schulmanager

/-- JS `date.getDay()`: weekday index, 0 = Sunday, 1 = Monday, ..., 6 = Saturday.
Dates are day counts since 1970-01-01 (a Thursday, index 4). -/
def getDay (d : Int) : Int := (d + 4) % 7

/-- SchulmanagerService.getMondayOfWeek (part_001 lines 164-169).
The source computes `diff = date.getDate() - day + (day === 0 ? -6 : 1)` and
calls `date.setDate(diff)`; on absolute day counts this changes the date by
`-day + (day === 0 ? -6 : 1)` days. -/
def getMondayOfWeek (d : Int) : Int :=
  d - getDay d + (if getDay d = 0 then -6 else 1)

/-- Whether the pattern is a prefix of the text, on character lists. -/
def matchesHead : List Char → List Char → Bool
  | [], _ => true
  | _ :: _, [] => false
  | p :: ps, t :: ts => p == t && matchesHead ps ts

/-- Whether the pattern occurs anywhere in the text, on character lists. -/
def occursIn (pat : List Char) : List Char → Bool
  | [] => pat.isEmpty
  | t :: ts => matchesHead pat (t :: ts) || occursIn pat ts

/-- JS `String.prototype.includes(sub)`: substring containment. -/
def containsSubstr (s sub : String) : Bool := occursIn sub.data s.data

/-- JS `String.prototype.startsWith(pre)` on character lists. -/
def jsStartsWith (s pre : String) : Bool := matchesHead pre.data s.data

/-- Zero-padding to two digits, JS `n.toString().padStart(2, '0')` for `n : Nat`. -/
def pad2 (n : Nat) : String :=
  if (toString n).length < 2 then "0" ++ toString n else toString n

/-- getTimetable (part_001 line 341): `8 + Math.floor((hour - 1) * 0.75)`.
For natural `hour ≥ 1` the float product `(hour-1)*0.75` is exact, so the
floor is natural division `3*(hour-1)/4`. -/
def lessonStartHour (hour : Nat) : Nat := 8 + 3 * (hour - 1) / 4

/-- getTimetable line 342: `((hour - 1) * 45) % 60`. -/
def lessonStartMinute (hour : Nat) : Nat := (hour - 1) * 45 % 60

/-- getTimetable line 343: `(startMinute + 45) % 60`. -/
def lessonEndMinute (hour : Nat) : Nat := (lessonStartMinute hour + 45) % 60

/-- getTimetable line 344: `startHour + Math.floor((startMinute + 45) / 60)`. -/
def lessonEndHour (hour : Nat) : Nat :=
  lessonStartHour hour + (lessonStartMinute hour + 45) / 60

/-- getTimetable line 346: `HH:MM` start time string. -/
def lessonStartTime (hour : Nat) : String :=
  pad2 (lessonStartHour hour) ++ ":" ++ pad2 (lessonStartMinute hour)

/-- getTimetable line 347: `HH:MM` end time string. -/
def lessonEndTime (hour : Nat) : String :=
  pad2 (lessonEndHour hour) ++ ":" ++ pad2 (lessonEndMinute hour)

/-- One `.lesson-cell` DOM marker as the extractor reads it
(part_001 lines 237-269).  `className`, `teacher`, `room` are the trimmed
texts of the three sub-regions (empty string when the region is missing),
`classes` is the cell's classList, `text` its textContent, `substitutionInfo`
the trimmed text of a `.substitution-info`/`.change-info` child (empty when
absent), and `hasWarningBadge` models
`querySelector('.text-warning, .text-danger, .badge-warning') !== null`. -/
structure LessonCell where
  className : String
  teacher : String
  room : String
  classes : List String
  text : String
  substitutionInfo : String
  hasWarningBadge : Bool
  deriving DecidableEq

/-- part_001 lines 251-253: classList contains substitution/changed/cancelled. -/
def hasSubstitutionClass (c : LessonCell) : Bool :=
  c.classes.contains "substitution" || c.classes.contains "changed" ||
    c.classes.contains "cancelled"

/-- part_001 lines 256-259: cancelled class or one of two fixed German phrases. -/
def cellIsCancelled (c : LessonCell) : Bool :=
  c.classes.contains "cancelled" || containsSubstr c.text "fällt aus" ||
    containsSubstr c.text "entfällt"

/-- part_001 lines 267-269: deviation class, non-empty substitution info text,
or a warning/danger badge. -/
def cellIsSubstitution (c : LessonCell) : Bool :=
  hasSubstitutionClass c || c.substitutionInfo.length > 0 || c.hasWarningBadge

/-- The raw slot record built by the extractor (part_001 lines 13-21 and
272-280).  The source field `class` is spelled `cls` here (`class` is a Lean
keyword). -/
structure ScrapedLesson where
  hour : Nat
  cls : String
  teacher : String
  room : String
  isSubstitution : Bool
  isCancelled : Bool
  substitutionInfo : Option String
  deriving DecidableEq

/-- part_001 lines 271-283: a cell with a marker contributes a slot exactly
when its subject text `className` is non-empty (`if (className) { ... push }`);
`substitutionInfo || undefined` maps the empty string to `none`. -/
def extractCell (hour : Nat) (cell : Option LessonCell) : Option ScrapedLesson :=
  match cell with
  | none => none
  | some c =>
    if c.className = "" then none
    else
      some { hour := hour, cls := c.className, teacher := c.teacher,
             room := c.room, isSubstitution := cellIsSubstitution c,
             isCancelled := cellIsCancelled c,
             substitutionInfo :=
               if c.substitutionInfo = "" then none else some c.substitutionInfo }

/-- One day's column of the grid, walked row by row; the hour number is the
1-based row index (part_001 lines 230-232), independent of which cells hold
markers. -/
def extractColumnAux (hour : Nat) : List (Option LessonCell) → List ScrapedLesson
  | [] => []
  | c :: rest =>
    match extractCell hour c with
    | some s => s :: extractColumnAux (hour + 1) rest
    | none => extractColumnAux (hour + 1) rest

/-- The raw slots extracted for one day (its column of the week grid). -/
def extractDayColumn (cells : List (Option LessonCell)) : List ScrapedLesson :=
  extractColumnAux 1 cells

/-- WeekSchedule (part_001 line 23): day label keyed lists of raw slots.
Modelled as an association list in document order (day labels are distinct in
the portal's table head). -/
abbrev WeekSchedule : Type := List (String × List ScrapedLesson)

/-- part_001 lines 216-288: read the day labels from the table head (first
column skipped), then fill each day's list from its column of the row grid.
A row shorter than the header list simply contributes nothing to the missing
columns, as in the source's per-row `forEach`. -/
def extractWeek (days : List String) (rows : List (List (Option LessonCell))) :
    WeekSchedule :=
  days.enum.map fun p =>
    (p.2, extractDayColumn (rows.map fun row => (row.get? p.1).join))

/-- Lesson (lesson.model.ts lines 137-148).  `id` models the derived string
`date + "-" + lessonNumber` as the pair of its two components; `date` is a
day count. -/
structure LessonModel where
  id : Int × Nat
  subject : String
  teacher : String
  room : String
  startTime : String
  endTime : String
  lessonNumber : Nat
  date : Int
  isSubstitution : Bool
  isCancelled : Bool
  deriving DecidableEq

/-- LessonModel.fromScrapedData (lesson.model.ts lines 181-195) at the fields
getTimetable passes (no `id`, so the derived one is always used; the `date`
argument is a non-empty string at the call site, so its falsy fallback never
fires; `lessonNumber || 0` and `flag || false` are identities here). -/
def LessonModel.fromScrapedData (subject teacher room startTime endTime : String)
    (lessonNumber : Nat) (date : Int) (isSub isCan : Bool) : LessonModel :=
  { id := (date, lessonNumber),
    subject := if subject = "" then "Unbekannt" else subject,
    teacher := if teacher = "" then "N/A" else teacher,
    room := if room = "" then "N/A" else room,
    startTime := if startTime = "" then "00:00" else startTime,
    endTime := if endTime = "" then "00:00" else endTime,
    lessonNumber := lessonNumber,
    date := date,
    isSubstitution := isSub,
    isCancelled := isCan }

/-- The per-slot body of getTimetable's map (part_001 lines 338-360). -/
def toLesson (date : Int) (s : ScrapedLesson) : LessonModel :=
  LessonModel.fromScrapedData s.cls s.teacher s.room
    (lessonStartTime s.hour) (lessonEndTime s.hour) s.hour date
    s.isSubstitution s.isCancelled

/-- Normalization of one day's raw column into Lesson entities: extraction
filter followed by getTimetable's map. -/
def lessonsOfDay (date : Int) (cells : List (Option LessonCell)) :
    List LessonModel :=
  (extractDayColumn cells).map (toLesson date)

/-- getTimetable lines 314-326: German weekday name of the date, mapped to the
short labels Mo/Di/Mi/Do/Fr; Saturday and Sunday are absent from the mapping
(JS yields `undefined`). -/
def shortDayOf (d : Int) : Option String :=
  if getDay d = 1 then some "Mo"
  else if getDay d = 2 then some "Di"
  else if getDay d = 3 then some "Mi"
  else if getDay d = 4 then some "Do"
  else if getDay d = 5 then some "Fr"
  else none

/-- getTimetable lines 329-335: first schedule key containing the short day
label wins; no short label (weekend) or no matching key yields the empty day.
JS `dayKey.includes(undefined)` never matches, hence `none => []`. -/
def findDaySchedule (week : WeekSchedule) (sd : Option String) :
    List ScrapedLesson :=
  match sd with
  | none => []
  | some ab =>
    match (week : List (String × List ScrapedLesson)).find?
        (fun p => containsSubstr p.1 ab) with
    | some p => p.2
    | none => []

/-- getWeekSchedule (part_001 lines 174-190): navigates to the week anchored
at the Monday of `anchor` (defaulting to now) and extracts it.  The portal is
abstracted as `env`, mapping a Monday day count to the week grid it renders. -/
def getWeekSchedule (env : Int → WeekSchedule) (now : Int)
    (anchor : Option Int) : WeekSchedule :=
  env (getMondayOfWeek (anchor.getD now))

/-- getTimetable (part_001 lines 302-368): fetches the week schedule with NO
anchor argument (line 311: `this.getWeekSchedule()`), selects the weekday
column of the requested date, and normalizes it labelled with that date. -/
def getTimetable (env : Int → WeekSchedule) (now : Int) (date : Int) :
    List LessonModel :=
  (findDaySchedule (getWeekSchedule env now none) (shortDayOf date)).map
    (toLesson date)

/-- SubstitutionType (substitution.model.ts lines 6-12). -/
inductive SubstitutionType
  | SUBSTITUTION
  | CANCELLATION
  | ROOM_CHANGE
  | TIME_CHANGE
  | OTHER
  deriving DecidableEq

/-- Substitution (substitution.model.ts lines 14-26); `id` is the derived
`date + "-" + lessonNumber` pair as in `LessonModel`. -/
structure SubstitutionModel where
  id : Int × Nat
  date : Int
  lessonNumber : Nat
  originalSubject : String
  originalTeacher : String
  substituteSubject : Option String
  substituteTeacher : Option String
  room : Option String
  isCancelled : Bool
  note : Option String
  type : SubstitutionType
  deriving DecidableEq

/-- JS truthiness of an optional string: `undefined` and `''` are falsy. -/
def optTruthy : Option String → Bool
  | none => false
  | some s => s != ""

/-- The argument object getSubstitutions builds for
SubstitutionModel.fromScrapedData (part_001 lines 391-401).  The free text is
passed under the key `info`; the model function reads `data.note`, which is
not among these fields, so inside fromScrapedData `note` is undefined. -/
structure SubScrapedData where
  date : Int
  lessonNumber : Nat
  originalSubject : String
  originalTeacher : String
  substituteTeacher : Option String
  substituteSubject : Option String
  room : String
  isCancelled : Bool
  info : String
  deriving DecidableEq

/-- `data.note?.toLowerCase().includes('fällt aus')` with `note : Option`. -/
def noteSaysCancelled : Option String → Bool
  | none => false
  | some n => containsSubstr n.toLower "fällt aus"

/-- SubstitutionModel.fromScrapedData (substitution.model.ts lines 61-87) at
the shape getSubstitutions calls it with.  `data.note` and `data.originalRoom`
are undefined there: the note check sees `none`, and in the room branch
`data.room !== data.originalRoom` compares a string with `undefined`, which is
always true, so that branch reduces to the truthiness of `data.room`.
`data.id` is undefined, so the derived id is always used; `data.date` is a
non-empty string at the call site, so its fallback never fires. -/
def SubstitutionModel.fromScrapedData (data : SubScrapedData) : SubstitutionModel :=
  let note : Option String := none
  let type :=
    if data.isCancelled || noteSaysCancelled note then
      SubstitutionType.CANCELLATION
    else if optTruthy data.substituteTeacher || optTruthy data.substituteSubject then
      SubstitutionType.SUBSTITUTION
    else if data.room != "" then SubstitutionType.ROOM_CHANGE
    else SubstitutionType.OTHER
  { id := (data.date, data.lessonNumber),
    date := data.date,
    lessonNumber := data.lessonNumber,
    originalSubject :=
      if data.originalSubject = "" then "Unbekannt" else data.originalSubject,
    originalTeacher :=
      if data.originalTeacher = "" then "N/A" else data.originalTeacher,
    substituteSubject := data.substituteSubject,
    substituteTeacher := data.substituteTeacher,
    room := some data.room,
    isCancelled := data.isCancelled,
    note := note,
    type := type }

/-- The per-lesson body of getSubstitutions' loop (part_001 lines 388-405):
an entry is produced exactly for lessons with `isSubstitution || isCancelled`,
with the field choices of lines 392-400. -/
def substOfLesson (l : LessonModel) : Option SubstitutionModel :=
  if l.isSubstitution || l.isCancelled then
    some (SubstitutionModel.fromScrapedData
      { date := l.date,
        lessonNumber := l.lessonNumber,
        originalSubject := l.subject,
        originalTeacher := if l.isCancelled then "Unbekannt" else l.teacher,
        substituteTeacher := if l.isCancelled then none else some l.teacher,
        substituteSubject := if l.isCancelled then none else some l.subject,
        room := l.room,
        isCancelled := l.isCancelled,
        info := if l.isCancelled then "Stunde fällt aus" else "Vertretung" })
  else none

/-- The substitution derivation over a lesson list. -/
def getSubstitutionsOf (lessons : List LessonModel) : List SubstitutionModel :=
  lessons.filterMap substOfLesson

/-- getSubstitutions (part_001 lines 374-413): derive from the timetable. -/
def getSubstitutions (env : Int → WeekSchedule) (now : Int) (date : Int) :
    List SubstitutionModel :=
  getSubstitutionsOf (getTimetable env now date)

/-- One NodeCache entry: key, value, and absolute expiry time (in seconds
here); `none` expiry means a TTL of 0, i.e. the entry never expires. -/
abbrev CacheEntries (α : Type) : Type := List (String × α × Option Nat)

/-- NodeCache get: the entry for the key, dropped when its expiry has passed
(NodeCache checks `ttl < Date.now()`). -/
def cacheGet {α : Type} (entries : CacheEntries α) (key : String) (now : Nat) :
    Option α :=
  match entries.find? (fun e => e.1 == key) with
  | none => none
  | some e =>
    match e.2.2 with
    | none => some e.2.1
    | some t => if t < now then none else some e.2.1

/-- NodeCache set: stores the value under the key with expiry `now + ttl`
(no expiry for ttl 0), replacing any previous entry for that key. -/
def cacheSet {α : Type} (entries : CacheEntries α) (key : String) (v : α)
    (ttl : Nat) (now : Nat) : CacheEntries α :=
  (key, v, if ttl = 0 then none else some (now + ttl)) ::
    entries.filter (fun e => e.1 != key)

/-- CacheService.set (cache.service.ts lines 23-25): resolves
`ttl || config.cache.ttl.timetable` before delegating — an absent OR zero
ttl falls back to the configured default. -/
def serviceSet {α : Type} (entries : CacheEntries α) (key : String) (v : α)
    (ttl : Option Nat) (defaultTtl : Nat) (now : Nat) : CacheEntries α :=
  cacheSet entries key v
    (match ttl with
     | some t => if t = 0 then defaultTtl else t
     | none => defaultTtl) now

/-- CacheService.delByPrefix (cache.service.ts lines 51-54):
`keys().filter(startsWith(prefix))` then `del` of those keys. -/
def delByPrefix {α : Type} (entries : CacheEntries α) (p : String) :
    CacheEntries α :=
  entries.filter (fun e => !(jsStartsWith e.1 p))

/-- CacheService.getOrSet (cache.service.ts lines 74-90).  The compute
function is a thunk; the third component counts how often it was invoked. -/
def getOrSet {α : Type} (entries : CacheEntries α) (key : String)
    (fn : Unit → α) (ttl : Option Nat) (defaultTtl : Nat) (now : Nat) :
    α × CacheEntries α × Nat :=
  match cacheGet entries key now with
  | some v => (v, entries, 0)
  | none =>
    let v := fn ()
    (v, serviceSet entries key v ttl defaultTtl now, 1)

/-- The NodeCache encoding of a ttl as an absolute expiry: what "storing with
the given TTL" means at store time `now` (ttl 0 = unlimited). -/
def ttlExpiry (ttl : Nat) (now : Nat) : Option Nat :=
  if ttl = 0 then none else some (now + ttl)

/-- The environment a login attempt runs against: which of the fallible steps
of performLogin (part_001 lines 84-159) fail, and whether the final URL check
succeeds.  The navigation-timeout of line 135 is swallowed by its `.catch` and
so is not a failure point. -/
structure LoginEnv where
  initFails : Bool
  pageAvailable : Bool
  gotoFails : Bool
  emailSel1 : Bool
  emailSel2 : Bool
  emailSel3 : Bool
  passwordFound : Bool
  submitFound : Bool
  urlAuthenticated : Bool
  deriving DecidableEq

/-- Session state touched by the login path: `isLoggedIn` (part_001 line 28).
The in-flight promise is modelled separately in the interleaving machine. -/
structure SessionState where
  isLoggedIn : Bool
  deriving DecidableEq

/-- The try-block of performLogin (part_001 lines 85-153): each step may
raise (modelled as `Except.error`); the email input is sought through three
fallback selectors, first match wins; on reaching the end, success is decided
solely by the URL check, whose value is also written to `isLoggedIn`. -/
def performLoginBody (env : LoginEnv) (st : SessionState) :
    Except String (Bool × SessionState) :=
  if env.initFails then .error "init failed"
  else if !env.pageAvailable then .error "Browser page not initialized"
  else if env.gotoFails then .error "navigation failed"
  else if !(env.emailSel1 || env.emailSel2 || env.emailSel3) then
    .error "Could not find email input field"
  else if !env.passwordFound then .error "Could not find password input field"
  else if !env.submitFound then .error "Could not find submit button"
  else .ok (env.urlAuthenticated, { st with isLoggedIn := env.urlAuthenticated })

/-- performLogin (part_001 lines 84-159): the catch-block turns any raise
into a `false` return with `isLoggedIn` forced to false; the result is total. -/
def performLogin (env : LoginEnv) (st : SessionState) : Bool × SessionState :=
  match performLoginBody env st with
  | .ok r => r
  | .error _ => (false, { st with isLoggedIn := false })

/-- login (part_001 lines 59-79) for a single caller (no login in flight):
returns true immediately when already authenticated, otherwise runs
performLogin.  The codomain is `Except` so that "never raises" is a statement
rather than a typing artefact: a raise would be an `Except.error`. -/
def login (env : LoginEnv) (st : SessionState) :
    Except String (Bool × SessionState) :=
  if st.isLoggedIn then .ok (true, st)
  else
    let r := performLogin env st
    .ok r

/-- Status of one caller of login in the interleaving machine. -/
inductive TaskSt
  | idle
  | waiting (i : Nat) (starter : Bool)
  | done (b : Bool)
  deriving DecidableEq

/-- Shared state of the single-flight machine.  `inFlight` models
`this.loginPromise` (the id of the attempt it resolves to), `attempts` counts
performLogin invocations so far, `resolved` how many attempts have completed;
attempts complete in start order, so attempt `i` is complete iff
`i < resolved`. -/
structure MState where
  isLoggedIn : Bool
  inFlight : Option Nat
  attempts : Nat
  resolved : Nat
  taskA : TaskSt
  taskB : TaskSt
  deriving DecidableEq

/-- Events of the machine: a step of caller A, a step of caller B, or the
completion of the oldest running attempt (the portal answering). -/
inductive Ev
  | stepA
  | stepB
  | complete
  deriving DecidableEq

/-- One step of a caller, mirroring the synchronous segments of login
(part_001 lines 59-79).  Lines 61-71 run without an await: the check of
`isLoggedIn`, the check of `loginPromise`, and — for the caller that finds it
null — the assignment of a fresh promise, atomically.  A waiting caller
resumes once its attempt has completed; only the caller that started the
attempt runs the `finally` clearing `loginPromise` (the second caller returns
from line 67, outside the try/finally). -/
def taskStep (env : Nat → Bool) (s : MState) (t : TaskSt) : TaskSt × MState :=
  match t with
  | .idle =>
    if s.isLoggedIn then (.done true, s)
    else
      match s.inFlight with
      | some i => (.waiting i false, s)
      | none =>
        (.waiting s.attempts true,
         { s with inFlight := some s.attempts, attempts := s.attempts + 1 })
  | .waiting i starter =>
    if i < s.resolved then
      (.done (env i), if starter then { s with inFlight := none } else s)
    else (t, s)
  | .done b => (.done b, s)

/-- Transition of the machine.  `complete` resolves the oldest unresolved
attempt: performLogin writes its boolean to `isLoggedIn` (part_001 lines
145-157, both on the success and the catch path) just before resolving;
`env i` is the outcome of attempt `i`. -/
def step (env : Nat → Bool) (s : MState) : Ev → MState
  | .stepA => let r := taskStep env s s.taskA; { r.2 with taskA := r.1 }
  | .stepB => let r := taskStep env s s.taskB; { r.2 with taskB := r.1 }
  | .complete =>
    if s.resolved < s.attempts then
      { s with isLoggedIn := env s.resolved, resolved := s.resolved + 1 }
    else s

/-- Initial state: fresh service, both callers yet to invoke login. -/
def initMState : MState :=
  { isLoggedIn := false, inFlight := none, attempts := 0, resolved := 0,
    taskA := .idle, taskB := .idle }

/-- Run of the machine under a schedule (an arbitrary interleaving). -/
def run (env : Nat → Bool) (l : List Ev) : MState :=
  l.foldl (step env) initMState

/-- Reachability invariant of the machine: attempts resolve before new ones
start (at most one unresolved), the unresolved attempt is exactly the one the
in-flight marker names and it can only exist while unauthenticated, and a
caller that started attempt `i` keeps `inFlight = some i` until it clears it. -/
def Inv (s : MState) : Prop :=
  s.resolved ≤ s.attempts ∧
  s.attempts ≤ s.resolved + 1 ∧
  (s.attempts = s.resolved + 1 → s.inFlight = some s.resolved ∧ s.isLoggedIn = false) ∧
  (∀ i, s.taskA = .waiting i true → s.inFlight = some i) ∧
  (∀ i, s.taskB = .waiting i true → s.inFlight = some i) ∧
  (∀ i j, s.taskA = .waiting i true → s.taskB = .waiting j true → False)

/-- Whether a raw day cell holds a marker with a non-empty subject label. -/
def slotHasSubject : Option LessonCell → Bool
  | some c => c.className != ""
  | none => false

/-- The date-independent payload of a Lesson: everything except `date` and
the date component of `id`. -/
def stripDate (l : LessonModel) :
    String × String × String × String × String × Nat × Bool × Bool :=
  (l.subject, l.teacher, l.room, l.startTime, l.endTime, l.lessonNumber,
   l.isSubstitution, l.isCancelled)

/-- Example attempt-outcome oracle: every login attempt fails. -/
def envW : Nat → Bool := fun _ => false

/-- Example cell: a plain lesson, no deviation markers. -/
def exCellPlain : LessonCell :=
  { className := "Mathe", teacher := "Schmidt", room := "101", classes := [],
    text := "", substitutionInfo := "", hasWarningBadge := false }

/-- Example cell: a lesson carrying the `substitution` class. -/
def exCellSub : LessonCell :=
  { className := "Mathe", teacher := "Schmidt", room := "101",
    classes := ["substitution"], text := "", substitutionInfo := "",
    hasWarningBadge := false }

/-- Example portal: every week renders a Monday column with one substituted
lesson in hour 1. -/
def exWeekEnv : Int → WeekSchedule :=
  fun _ => [("Mo 05.01.", extractDayColumn [some exCellSub])]

/-- Placeholder lesson used as the `getD` default in examples. -/
def exDefaultLesson : LessonModel :=
  { id := (0, 0), subject := "", teacher := "", room := "", startTime := "",
    endTime := "", lessonNumber := 0, date := 0, isSubstitution := false,
    isCancelled := false }

/-- The lesson the pipeline produces for `exCellPlain` on date 0. -/
def exC2Lesson : LessonModel :=
  (lessonsOfDay 0 [some exCellPlain]).getD 0 exDefaultLesson

/-- The lesson getTimetable produces from `exWeekEnv` on Monday 1970-01-05
(day count 4). -/
def exTTLesson : LessonModel :=
  (getTimetable exWeekEnv 4 4).getD 0 exDefaultLesson

/-- Placeholder substitution used as the `getD` default in examples. -/
def exDefaultSub : SubstitutionModel :=
  { id := (0, 0), date := 0, lessonNumber := 0, originalSubject := "",
    originalTeacher := "", substituteSubject := none,
    substituteTeacher := none, room := none, isCancelled := false,
    note := none, type := SubstitutionType.OTHER }

/-- The substitution entry derived from `exWeekEnv` on day count 4. -/
def exSubEntry : SubstitutionModel :=
  (getSubstitutions exWeekEnv 4 4).getD 0 exDefaultSub

/-- Example cancelled lesson (as getTimetable would produce one whose cell
carries a cancellation marker). -/
def exCancelledLesson : LessonModel :=
  { id := (0, 1), subject := "Mathe", teacher := "N/A", room := "101",
    startTime := "08:00", endTime := "08:45", lessonNumber := 1, date := 0,
    isSubstitution := false, isCancelled := true }

/-- The substitution entry getSubstitutions derives from
`exCancelledLesson`: SubstitutionModel.fromScrapedData applied to exactly the
argument object built at part_001 lines 391-401. -/
def exCancelledSub : SubstitutionModel :=
  SubstitutionModel.fromScrapedData
    { date := 0, lessonNumber := 1, originalSubject := "Mathe",
      originalTeacher := "Unbekannt", substituteTeacher := none,
      substituteSubject := none, room := "101", isCancelled := true,
      info := "Stunde fällt aus" }

/-- Example cache content: one timetable entry and one substitutions entry. -/
def exCacheEntries : CacheEntries Nat :=
  [("timetable:default:2025-10-13", 1, none),
   ("substitutions:default:2025-10-13", 2, none)]

/-- Example login environment: no email input field is found by any of the
three fallback selectors, so performLogin's body raises. -/
def exFailEnv : LoginEnv :=
  { initFails := false, pageAvailable := true, gotoFails := false,
    emailSel1 := false, emailSel2 := false, emailSel3 := false,
    passwordFound := true, submitFound := true, urlAuthenticated := true }

/-- Claim C1: for every anchor date, getMondayOfWeek is idempotent, its result
falls on a Monday (weekday index 1), and it follows the stated rule: for a
Sunday anchor the Monday is 6 days earlier, otherwise Monday = date minus
(dayIndex - 1). -/
theorem getMondayOfWeek_monday_idempotent (d : Int) :
    getMondayOfWeek (getMondayOfWeek d) = getMondayOfWeek d ∧
    getDay (getMondayOfWeek d) = 1 ∧
    getMondayOfWeek d = (if getDay d = 0 then d - 6 else d - (getDay d - 1)) := by
  simp only [getMondayOfWeek, getDay]
  split_ifs <;> omega

lemma colon_ne_empty (a b : String) : a ++ ":" ++ b ≠ "" := by
  intro h
  have hlen := congrArg String.length h
  rw [String.length_append, String.length_append] at hlen
  have h1 : (":" : String).length = 1 := rfl
  have h2 : ("" : String).length = 0 := rfl
  omega

/-- Claim C2: every Lesson the timetable normalization produces for a slot
with 1-based hour index h carries exactly startHour = 8 + floor((h-1)*0.75),
startMinute = ((h-1)*45) mod 60, endMinute = (startMinute+45) mod 60,
endHour = startHour + floor((startMinute+45)/60), zero-padded to two digits;
in particular hour 1 yields "08:00"-"08:45" and hour 5 yields
"11:00"-"11:45". -/
theorem lesson_times_formula (date : Int) (cells : List (Option LessonCell))
    (l : LessonModel) (hl : l ∈ lessonsOfDay date cells) :
    (l.startTime =
        pad2 (8 + 3 * (l.lessonNumber - 1) / 4) ++ ":" ++
          pad2 ((l.lessonNumber - 1) * 45 % 60) ∧
      l.endTime =
        pad2 (8 + 3 * (l.lessonNumber - 1) / 4 +
            ((l.lessonNumber - 1) * 45 % 60 + 45) / 60) ++ ":" ++
          pad2 (((l.lessonNumber - 1) * 45 % 60 + 45) % 60)) ∧
    (lessonStartTime 1 = "08:00" ∧ lessonEndTime 1 = "08:45" ∧
      lessonStartTime 5 = "11:00" ∧ lessonEndTime 5 = "11:45") := by
  refine ⟨?_, by decide, by decide, by decide, by decide⟩
  obtain ⟨s, hs, rfl⟩ := List.mem_map.mp hl
  have hst : lessonStartTime s.hour ≠ "" := colon_ne_empty _ _
  have het : lessonEndTime s.hour ≠ "" := colon_ne_empty _ _
  have h1 : (toLesson date s).startTime = lessonStartTime s.hour := by
    simp [toLesson, LessonModel.fromScrapedData, hst]
  have h2 : (toLesson date s).endTime = lessonEndTime s.hour := by
    simp [toLesson, LessonModel.fromScrapedData, het]
  have h3 : (toLesson date s).lessonNumber = s.hour := rfl
  constructor
  · rw [h3, h1]; rfl
  · rw [h3, h2]; rfl

/-- Witness for C2 at a concrete extracted day. -/
theorem lesson_times_formula_witness :
    exC2Lesson.startTime =
      pad2 (8 + 3 * (exC2Lesson.lessonNumber - 1) / 4) ++ ":" ++
        pad2 ((exC2Lesson.lessonNumber - 1) * 45 % 60) :=
  ((lesson_times_formula 0 [some exCellPlain] exC2Lesson (by
    have h : lessonsOfDay 0 [some exCellPlain] = [exC2Lesson] := rfl
    rw [h]
    exact List.Mem.head _)).1).1

lemma extractColumnAux_length (h : Nat) (cells : List (Option LessonCell)) :
    (extractColumnAux h cells).length = cells.countP slotHasSubject := by
  induction cells generalizing h with
  | nil => rfl
  | cons c rest ih =>
    cases c with
    | none =>
      simpa [extractColumnAux, extractCell, slotHasSubject, List.countP_cons]
        using ih (h + 1)
    | some c0 =>
      by_cases hc : c0.className = "" <;>
        simp [extractColumnAux, extractCell, slotHasSubject, hc,
          List.countP_cons, ih (h + 1)]

/-- Claim C3: for every day column of raw cells, the normalization yields
exactly one Lesson per slot with non-empty subject label; slots with an empty
subject are dropped, so the Lesson count equals the count of slots with a
non-empty subject. -/
theorem toLessons_count (date : Int) (cells : List (Option LessonCell)) :
    (lessonsOfDay date cells).length = cells.countP slotHasSubject := by
  rw [lessonsOfDay, List.length_map, extractDayColumn, extractColumnAux_length]

lemma length_filterMap_countP {α β : Type} (f : α → Option β) (l : List α) :
    (l.filterMap f).length = l.countP (fun a => (f a).isSome) := by
  induction l with
  | nil => rfl
  | cons a rest ih =>
    cases hfa : f a <;>
      simp [List.filterMap_cons, hfa, List.countP_cons, ih]

lemma substOfLesson_isSome (l : LessonModel) :
    (substOfLesson l).isSome = (l.isSubstitution || l.isCancelled) := by
  by_cases h : l.isSubstitution || l.isCancelled <;> simp [substOfLesson, h]

/-- Claim C4 counterexample: for a concrete cancelled lesson an entry is
emitted, but its `note` is unset instead of the "Stunde fällt aus" sentinel —
getSubstitutions passes the text under the key `info`, which
SubstitutionModel.fromScrapedData does not read. -/
theorem getSubstitutions_note_counterexample :
    (getSubstitutionsOf [exCancelledLesson]).length = 1 ∧
    (getSubstitutionsOf [exCancelledLesson]).map (fun s => s.note) ≠
      [some "Stunde fällt aus"] := by
  constructor
  · rfl
  · intro h
    have h0 : (getSubstitutionsOf [exCancelledLesson]).map (fun s => s.note) =
        [none] := rfl
    rw [h0] at h
    exact Option.noConfusion (List.head_eq_of_cons_eq h)

/-- Claim C4 (amended): a Substitution entry is emitted iff the Lesson has
isCancelled or isSubstitution set (count invariant over any lesson list); a
Lesson with both flags false contributes nothing; every cancelled Lesson
yields an entry with type CANCELLATION regardless of its other fields, with
originalTeacher "Unbekannt" and the substitute fields omitted — but its note
is left unset: the cancellation text is passed under the key `info`, which
the conversion does not read, so no note is stored. -/
theorem getSubstitutions_per_lesson (lessons : List LessonModel) (l : LessonModel) :
    (getSubstitutionsOf lessons).length =
      lessons.countP (fun l0 => l0.isSubstitution || l0.isCancelled) ∧
    (l.isSubstitution = false → l.isCancelled = false → substOfLesson l = none) ∧
    (l.isCancelled = true → substOfLesson l ≠ none) ∧
    (∀ s, l.isCancelled = true → substOfLesson l = some s →
      s.type = SubstitutionType.CANCELLATION ∧
      s.originalTeacher = "Unbekannt" ∧
      s.substituteTeacher = none ∧
      s.substituteSubject = none ∧
      s.note = none) := by
  refine ⟨?_, ?_, ?_, ?_⟩
  · rw [getSubstitutionsOf, length_filterMap_countP]
    exact List.countP_congr (fun l0 _ => by rw [substOfLesson_isSome l0])
  · intro h1 h2
    simp [substOfLesson, h1, h2]
  · intro hc
    simp [substOfLesson, hc]
  · intro s hc hs
    rw [substOfLesson] at hs
    simp only [hc, Bool.or_true, if_true] at hs
    obtain rfl := Option.some.inj hs
    refine ⟨?_, ?_, rfl, rfl, rfl⟩
    · simp [SubstitutionModel.fromScrapedData]
    · simp [SubstitutionModel.fromScrapedData]

/-- Witness for C4 at the concrete cancelled lesson. -/
theorem getSubstitutions_per_lesson_witness :
    exCancelledSub.type = SubstitutionType.CANCELLATION ∧
    exCancelledSub.originalTeacher = "Unbekannt" ∧
    exCancelledSub.substituteTeacher = none ∧
    exCancelledSub.substituteSubject = none ∧
    exCancelledSub.note = none :=
  (getSubstitutions_per_lesson [] exCancelledLesson).2.2.2 exCancelledSub rfl rfl

lemma substOfLesson_type_not_room (l : LessonModel) (hT : l.teacher ≠ "")
    (s : SubstitutionModel) (hs : substOfLesson l = some s) :
    s.type ≠ SubstitutionType.ROOM_CHANGE := by
  by_cases hc : l.isCancelled = true
  · rw [substOfLesson] at hs
    simp only [hc, Bool.or_true, if_true] at hs
    obtain rfl := Option.some.inj hs
    simp [SubstitutionModel.fromScrapedData]
  · by_cases hsub : l.isSubstitution = true
    · rw [substOfLesson] at hs
      simp only [hsub, Bool.true_or, if_true] at hs
      obtain rfl := Option.some.inj hs
      have hcf : l.isCancelled = false := by
        cases h : l.isCancelled
        · rfl
        · exact absurd h hc
      have hTt : (l.teacher != "") = true := by
        simpa using hT
      simp [SubstitutionModel.fromScrapedData, hcf, noteSaysCancelled,
        optTruthy, hTt]
    · have h1 : l.isSubstitution = false := by
        cases h : l.isSubstitution
        · rfl
        · exact absurd h hsub
      have h2 : l.isCancelled = false := by
        cases h : l.isCancelled
        · rfl
        · exact absurd h hc
      rw [substOfLesson] at hs
      simp [h1, h2] at hs

/-- Claim C5: the substitution derivation over getTimetable output never
returns a ROOM_CHANGE entry — every non-cancelled emitted entry carries a
substitute teacher (the Lesson teacher, never empty thanks to the "N/A"
default), so classification always resolves to CANCELLATION or SUBSTITUTION
first. -/
theorem getSubstitutions_no_room_change (env : Int → WeekSchedule)
    (now date : Int) (s : SubstitutionModel)
    (hs : s ∈ getSubstitutions env now date) :
    s.type ≠ SubstitutionType.ROOM_CHANGE := by
  rw [getSubstitutions, getSubstitutionsOf] at hs
  obtain ⟨l, hl, hfl⟩ := List.mem_filterMap.mp hs
  rw [getTimetable] at hl
  obtain ⟨sl, hsl, rfl⟩ := List.mem_map.mp hl
  have hT : (toLesson date sl).teacher ≠ "" := by
    by_cases h : sl.teacher = "" <;>
      simp [toLesson, LessonModel.fromScrapedData, h]
  exact substOfLesson_type_not_room _ hT s hfl

/-- Witness for C5 at a concrete substituted lesson. -/
theorem getSubstitutions_no_room_change_witness :
    exSubEntry.type ≠ SubstitutionType.ROOM_CHANGE :=
  getSubstitutions_no_room_change exWeekEnv 4 4 exSubEntry (by
    have h : getSubstitutions exWeekEnv 4 4 = [exSubEntry] := rfl
    rw [h]
    exact List.Mem.head _)

lemma cacheGet_cacheSet_self {α : Type} (entries : CacheEntries α)
    (key : String) (v : α) (ttl now : Nat) :
    cacheGet (cacheSet entries key v ttl now) key now = some v := by
  have hfind : ∀ (rest : CacheEntries α) (exp : Option Nat),
      List.find? (fun e => e.1 == key) ((key, v, exp) :: rest) =
        some (key, v, exp) := by
    intro rest exp
    simp [List.find?_cons_of_pos]
  rw [cacheGet, cacheSet, hfind]
  by_cases h0 : ttl = 0
  · simp [h0]
  · simp only [h0, if_false]
    rw [if_neg (by omega)]

/-- Claim C6 counterexample: with a given TTL of 0, getOrSet does not store
the entry with that TTL (which NodeCache would encode as no expiry): the
`ttl || default` resolution in CacheService.set replaces it by the default,
here expiry 0 + 600. -/
theorem getOrSet_ttl_zero_counterexample :
    (getOrSet ([] : CacheEntries Nat) "k" (fun _ => 42) (some 0) 600 0).2.1 =
      [("k", 42, some 600)] ∧
    ttlExpiry 0 0 = none ∧
    (some 600 : Option Nat) ≠ none := by
  refine ⟨rfl, rfl, by decide⟩

/-- Claim C6 (amended): if a live entry exists for the key, getOrSet returns
it without invoking the compute function; otherwise it invokes the compute
function exactly once, stores the result under the key — with the given TTL
when that TTL is nonzero, a zero or omitted TTL falling back to the
configured default — and returns it; two immediately successive calls with
the same key invoke the compute function at most once in total. -/
theorem getOrSet_spec {α : Type} (entries : CacheEntries α) (key : String)
    (fn : Unit → α) (ttl : Option Nat) (defaultTtl now : Nat) :
    (∀ v, cacheGet entries key now = some v →
      getOrSet entries key fn ttl defaultTtl now = (v, entries, 0)) ∧
    (cacheGet entries key now = none →
      getOrSet entries key fn ttl defaultTtl now =
        (fn (), serviceSet entries key (fn ()) ttl defaultTtl now, 1)) ∧
    (∀ t, ttl = some t → t ≠ 0 → cacheGet entries key now = none →
      (getOrSet entries key fn ttl defaultTtl now).2.1 =
        (key, fn (), ttlExpiry t now) ::
          entries.filter (fun e => e.1 != key)) ∧
    ((getOrSet entries key fn ttl defaultTtl now).2.2 +
      (getOrSet (getOrSet entries key fn ttl defaultTtl now).2.1 key fn ttl
        defaultTtl now).2.2 ≤ 1) := by
  refine ⟨?_, ?_, ?_, ?_⟩
  · intro v hv
    simp [getOrSet, hv]
  · intro hn
    simp [getOrSet, hn]
  · intro t ht hnz hn
    subst ht
    simp [getOrSet, hn, serviceSet, cacheSet, hnz, ttlExpiry]
  · cases hv : cacheGet entries key now with
    | some v => simp [getOrSet, hv]
    | none =>
      have h2 : cacheGet (serviceSet entries key (fn ()) ttl defaultTtl now)
          key now = some (fn ()) := cacheGet_cacheSet_self _ _ _ _ _
      simp [getOrSet, hv, h2]

/-- Witness for C6: a live entry is returned without computing. -/
theorem getOrSet_spec_witness :
    getOrSet ([("k", 7, some 100)] : CacheEntries Nat) "k" (fun _ => 42)
      (some 50) 600 0 = (7, [("k", 7, some 100)], 0) :=
  (getOrSet_spec [("k", 7, some 100)] "k" (fun _ => 42) (some 50) 600 0).1 7 rfl

lemma find?_filter_of_imp {α : Type} (l : List α) (p q : α → Bool)
    (h : ∀ e, p e = true → q e = true) :
    (l.filter q).find? p = l.find? p := by
  induction l with
  | nil => rfl
  | cons a rest ih =>
    by_cases hq : q a = true
    · rw [List.filter_cons_of_pos hq]
      by_cases hp : p a = true
      · rw [List.find?_cons_of_pos _ hp, List.find?_cons_of_pos _ hp]
      · have hp0 : ¬ p a = true := hp
        rw [List.find?_cons_of_neg _ (by simpa using hp0),
          List.find?_cons_of_neg _ (by simpa using hp0)]
        exact ih
    · have hp : ¬ p a = true := fun hpa => hq (h a hpa)
      rw [List.filter_cons_of_neg (by simpa using hq),
        List.find?_cons_of_neg _ (by simpa using hp)]
      exact ih

/-- Claim C7: delByPrefix deletes exactly the entries whose key starts with
the prefix: afterwards no key with the prefix remains, every entry whose key
does not start with the prefix is still present, and lookups of such keys are
unchanged. -/
theorem delByPrefix_frame {α : Type} (entries : CacheEntries α) (p : String) :
    (∀ e, e ∈ delByPrefix entries p →
      jsStartsWith e.1 p = false ∧ e ∈ entries) ∧
    (∀ e, e ∈ entries → jsStartsWith e.1 p = false →
      e ∈ delByPrefix entries p) ∧
    (∀ k now, jsStartsWith k p = false →
      cacheGet ( delByPrefix entries p) k now = cacheGet entries k now) := by
  refine ⟨?_, ?_, ?_⟩
  · intro e he
    simp only [ delByPrefix, List.mem_filter, Bool.not_eq_true',
      Bool.not_eq_eq_eq_not] at he
    exact ⟨by simpa using he.2, he.1⟩
  · intro e he hs
    simp only [ delByPrefix, List.mem_filter]
    exact ⟨he, by simp [hs]⟩
  · intro k now hk
    have hfind : ((entries.filter (fun e => !(jsStartsWith e.1 p))).find?
        (fun e => e.1 == k)) = entries.find? (fun e => e.1 == k) := by
      refine find?_filter_of_imp _ _ _ (fun e he => ?_)
      have hek : e.1 = k := by simpa using he
      simp [hek, hk]
    simp only [cacheGet, delByPrefix, hfind]

/-- Witness for C7: the substitutions entry survives deleting the timetable
prefix. -/
theorem delByPrefix_frame_witness :
    ("substitutions:default:2025-10-13", 2, (none : Option Nat)) ∈
      delByPrefix exCacheEntries "timetable:" :=
  (delByPrefix_frame exCacheEntries "timetable:").2.1
    ("substitutions:default:2025-10-13", 2, none)
    (List.Mem.tail _ (List.Mem.head _)) (by decide)

/-- Claim C8: login never raises to its caller — it always returns a boolean
result — and whenever the internal authentication sequence raises, the
session's authentication state is forced to false and login returns false. -/
theorem login_never_raises (env : LoginEnv) (st : SessionState) :
    (∃ r, login env st = Except.ok r) ∧
    (st.isLoggedIn = false → ∀ e, performLoginBody env st = Except.error e →
      login env st = Except.ok (false, { isLoggedIn := false })) := by
  constructor
  · rw [login]
    split_ifs with h
    · exact ⟨(true, st), rfl⟩
    · exact ⟨performLogin env st, rfl⟩
  · intro hF e he
    rw [login, if_neg (by simp [hF])]
    rw [performLogin, he]

/-- Witness for C8: with no email input found, login returns ok false. -/
theorem login_never_raises_witness :
    login exFailEnv { isLoggedIn := false } =
      Except.ok (false, { isLoggedIn := false }) :=
  (login_never_raises exFailEnv { isLoggedIn := false }).2 rfl
    "Could not find email input field" rfl

lemma taskStep_state_tasks (env : Nat → Bool) (s : MState) (t : TaskSt) :
    (taskStep env s t).2.taskA = s.taskA ∧
      (taskStep env s t).2.taskB = s.taskB := by
  cases t with
  | idle =>
    by_cases h : s.isLoggedIn = true
    · simp [taskStep, h]
    · cases hf : s.inFlight <;> simp [taskStep, h, hf]
  | waiting i starter =>
    cases starter <;> by_cases h : i < s.resolved <;> simp [taskStep, h]
  | done b => simp [taskStep]

lemma inv_init : Inv initMState := by
  refine ⟨Nat.le_refl 0, by decide, fun h => absurd h (by decide), ?_, ?_, ?_⟩
  · intro i hi
    simp [initMState] at hi
  · intro i hi
    simp [initMState] at hi
  · intro i j hi hj
    simp [initMState] at hi

lemma inv_step (env : Nat → Bool) (s : MState) (e : Ev) (h : Inv s) :
    Inv (step env s e) := by
  obtain ⟨h1, h2, h3, h4, h5, h6⟩ := h
  cases e with
  | complete =>
    by_cases hr : s.resolved < s.attempts
    · have hstep : step env s Ev.complete =
          { s with isLoggedIn := env s.resolved, resolved := s.resolved + 1 } := by
        simp [step, hr]
      rw [hstep]
      refine ⟨?_, ?_, ?_, ?_, ?_, ?_⟩
      · show s.resolved + 1 ≤ s.attempts
        omega
      · show s.attempts ≤ s.resolved + 1 + 1
        omega
      · intro hEq
        exact absurd (show s.attempts = s.resolved + 2 from hEq) (by omega)
      · intro i hi
        exact h4 i hi
      · intro i hi
        exact h5 i hi
      · intro i j hi hj
        exact h6 i j hi hj
    · have hstep : step env s Ev.complete = s := by simp [step, hr]
      rw [hstep]
      exact ⟨h1, h2, h3, h4, h5, h6⟩
  | stepA =>
    cases hA : s.taskA with
    | idle =>
      by_cases hL : s.isLoggedIn = true
      · have hstep : step env s Ev.stepA = { s with taskA := TaskSt.done true } := by
          simp [step, taskStep, hA, hL]
        rw [hstep]
        refine ⟨h1, h2, ?_, ?_, ?_, ?_⟩
        · intro hEq
          exfalso
          have hc := (h3 hEq).2
          rw [hL] at hc
          exact Bool.noConfusion hc
        · intro i hi
          exact TaskSt.noConfusion hi
        · intro i hi
          exact h5 i hi
        · intro i j hi hj
          exact TaskSt.noConfusion hi
      · have hLf : s.isLoggedIn = false := by
          cases hb : s.isLoggedIn
          · rfl
          · exact absurd hb hL
        cases hF : s.inFlight with
        | some i0 =>
          have hstep : step env s Ev.stepA =
              { s with taskA := TaskSt.waiting i0 false } := by
            simp [step, taskStep, hA, hLf, hF]
          rw [hstep]
          refine ⟨h1, h2, h3, ?_, ?_, ?_⟩
          · intro i hi
            have hi2 : TaskSt.waiting i0 false = TaskSt.waiting i true := hi
            injection hi2 with g1 g2
            exact Bool.noConfusion g2
          · intro i hi
            exact h5 i hi
          · intro i j hi hj
            have hi2 : TaskSt.waiting i0 false = TaskSt.waiting i true := hi
            injection hi2 with g1 g2
            exact Bool.noConfusion g2
        | none =>
          have hne : s.attempts ≠ s.resolved + 1 := by
            intro hEq
            rw [(h3 hEq).1] at hF
            exact Option.noConfusion hF
          have hAtt : s.attempts = s.resolved := by omega
          have hstep : step env s Ev.stepA =
              { s with inFlight := some s.attempts, attempts := s.attempts + 1,
                       taskA := TaskSt.waiting s.attempts true } := by
            simp [step, taskStep, hA, hLf, hF]
          rw [hstep]
          refine ⟨?_, ?_, ?_, ?_, ?_, ?_⟩
          · show s.resolved ≤ s.attempts + 1
            omega
          · show s.attempts + 1 ≤ s.resolved + 1
            omega
          · intro hEq2
            refine ⟨?_, hLf⟩
            show some s.attempts = some s.resolved
            rw [hAtt]
          · intro i hi
            have hi2 : TaskSt.waiting s.attempts true = TaskSt.waiting i true := hi
            injection hi2 with g1 g2
            show some s.attempts = some i
            rw [g1]
          · intro i hi
            exfalso
            have h9 := h5 i hi
            rw [hF] at h9
            exact Option.noConfusion h9
          · intro i j hi hj
            have h9 := h5 j hj
            rw [hF] at h9
            exact Option.noConfusion h9
    | waiting i0 starter =>
      by_cases hres : i0 < s.resolved
      · cases starter with
        | true =>
          have hIF : s.inFlight = some i0 := h4 i0 hA
          have hstep : step env s Ev.stepA =
              { s with inFlight := none, taskA := TaskSt.done (env i0) } := by
            simp [step, taskStep, hA, hres]
          rw [hstep]
          refine ⟨h1, h2, ?_, ?_, ?_, ?_⟩
          · intro hEq
            exfalso
            have hsome := (h3 hEq).1
            rw [hIF] at hsome
            have h9 : i0 = s.resolved := Option.some.inj hsome
            omega
          · intro i hi
            exact TaskSt.noConfusion hi
          · intro i hi
            exact (h6 i0 i hA hi).elim
          · intro i j hi hj
            exact TaskSt.noConfusion hi
        | false =>
          have hstep : step env s Ev.stepA =
              { s with taskA := TaskSt.done (env i0) } := by
            simp [step, taskStep, hA, hres]
          rw [hstep]
          refine ⟨h1, h2, h3, ?_, ?_, ?_⟩
          · intro i hi
            exact TaskSt.noConfusion hi
          · intro i hi
            exact h5 i hi
          · intro i j hi hj
            exact TaskSt.noConfusion hi
      · have hstep : step env s Ev.stepA =
            { s with taskA := TaskSt.waiting i0 starter } := by
          simp [step, taskStep, hA, hres]
        rw [hstep]
        refine ⟨h1, h2, h3, ?_, ?_, ?_⟩
        · intro i hi
          have hi2 : TaskSt.waiting i0 starter = TaskSt.waiting i true := hi
          exact h4 i (hA.trans hi2)
        · intro i hi
          exact h5 i hi
        · intro i j hi hj
          have hi2 : TaskSt.waiting i0 starter = TaskSt.waiting i true := hi
          exact h6 i j (hA.trans hi2) hj
    | done b =>
      have hstep : step env s Ev.stepA = { s with taskA := TaskSt.done b } := by
        simp [step, taskStep, hA]
      rw [hstep]
      refine ⟨h1, h2, h3, ?_, ?_, ?_⟩
      · intro i hi
        exact TaskSt.noConfusion hi
      · intro i hi
        exact h5 i hi
      · intro i j hi hj
        exact TaskSt.noConfusion hi
  | stepB =>
    cases hB : s.taskB with
    | idle =>
      by_cases hL : s.isLoggedIn = true
      · have hstep : step env s Ev.stepB = { s with taskB := TaskSt.done true } := by
          simp [step, taskStep, hB, hL]
        rw [hstep]
        refine ⟨h1, h2, ?_, ?_, ?_, ?_⟩
        · intro hEq
          exfalso
          have hc := (h3 hEq).2
          rw [hL] at hc
          exact Bool.noConfusion hc
        · intro i hi
          exact h4 i hi
        · intro i hi
          exact TaskSt.noConfusion hi
        · intro i j hi hj
          exact TaskSt.noConfusion hj
      · have hLf : s.isLoggedIn = false := by
          cases hb : s.isLoggedIn
          · rfl
          · exact absurd hb hL
        cases hF : s.inFlight with
        | some i0 =>
          have hstep : step env s Ev.stepB =
              { s with taskB := TaskSt.waiting i0 false } := by
            simp [step, taskStep, hB, hLf, hF]
          rw [hstep]
          refine ⟨h1, h2, h3, ?_, ?_, ?_⟩
          · intro i hi
            exact h4 i hi
          · intro i hi
            have hi2 : TaskSt.waiting i0 false = TaskSt.waiting i true := hi
            injection hi2 with g1 g2
            exact Bool.noConfusion g2
          · intro i j hi hj
            have hj2 : TaskSt.waiting i0 false = TaskSt.waiting j true := hj
            injection hj2 with g1 g2
            exact Bool.noConfusion g2
        | none =>
          have hne : s.attempts ≠ s.resolved + 1 := by
            intro hEq
            rw [(h3 hEq).1] at hF
            exact Option.noConfusion hF
          have hAtt : s.attempts = s.resolved := by omega
          have hstep : step env s Ev.stepB =
              { s with inFlight := some s.attempts, attempts := s.attempts + 1,
                       taskB := TaskSt.waiting s.attempts true } := by
            simp [step, taskStep, hB, hLf, hF]
          rw [hstep]
          refine ⟨?_, ?_, ?_, ?_, ?_, ?_⟩
          · show s.resolved ≤ s.attempts + 1
            omega
          · show s.attempts + 1 ≤ s.resolved + 1
            omega
          · intro hEq2
            refine ⟨?_, hLf⟩
            show some s.attempts = some s.resolved
            rw [hAtt]
          · intro i hi
            exfalso
            have h9 := h4 i hi
            rw [hF] at h9
            exact Option.noConfusion h9
          · intro i hi
            have hi2 : TaskSt.waiting s.attempts true = TaskSt.waiting i true := hi
            injection hi2 with g1 g2
            show some s.attempts = some i
            rw [g1]
          · intro i j hi hj
            have h9 := h4 i hi
            rw [hF] at h9
            exact Option.noConfusion h9
    | waiting i0 starter =>
      by_cases hres : i0 < s.resolved
      · cases starter with
        | true =>
          have hIF : s.inFlight = some i0 := h5 i0 hB
          have hstep : step env s Ev.stepB =
              { s with inFlight := none, taskB := TaskSt.done (env i0) } := by
            simp [step, taskStep, hB, hres]
          rw [hstep]
          refine ⟨h1, h2, ?_, ?_, ?_, ?_⟩
          · intro hEq
            exfalso
            have hsome := (h3 hEq).1
            rw [hIF] at hsome
            have h9 : i0 = s.resolved := Option.some.inj hsome
            omega
          · intro i hi
            exact (h6 i i0 hi hB).elim
          · intro i hi
            exact TaskSt.noConfusion hi
          · intro i j hi hj
            exact TaskSt.noConfusion hj
        | false =>
          have hstep : step env s Ev.stepB =
              { s with taskB := TaskSt.done (env i0) } := by
            simp [step, taskStep, hB, hres]
          rw [hstep]
          refine ⟨h1, h2, h3, ?_, ?_, ?_⟩
          · intro i hi
            exact h4 i hi
          · intro i hi
            exact TaskSt.noConfusion hi
          · intro i j hi hj
            exact TaskSt.noConfusion hj
      · have hstep : step env s Ev.stepB =
            { s with taskB := TaskSt.waiting i0 starter } := by
          simp [step, taskStep, hB, hres]
        rw [hstep]
        refine ⟨h1, h2, h3, ?_, ?_, ?_⟩
        · intro i hi
          exact h4 i hi
        · intro i hi
          have hi2 : TaskSt.waiting i0 starter = TaskSt.waiting i true := hi
          exact h5 i (hB.trans hi2)
        · intro i j hi hj
          have hj2 : TaskSt.waiting i0 starter = TaskSt.waiting j true := hj
          exact h6 i j hi (hB.trans hj2)
    | done b =>
      have hstep : step env s Ev.stepB = { s with taskB := TaskSt.done b } := by
        simp [step, taskStep, hB]
      rw [hstep]
      refine ⟨h1, h2, h3, ?_, ?_, ?_⟩
      · intro i hi
        exact h4 i hi
      · intro i hi
        exact TaskSt.noConfusion hi
      · intro i j hi hj
        exact TaskSt.noConfusion hj

lemma inv_foldl (env : Nat → Bool) (l : List Ev) (s : MState) (h : Inv s) :
    Inv (l.foldl (step env) s) := by
  induction l generalizing s with
  | nil => exact h
  | cons e rest ih => exact ih _ (inv_step env s e h)

lemma inv_run (env : Nat → Bool) (l : List Ev) : Inv (run env l) :=
  inv_foldl env l initMState inv_init

lemma step_preserves_taskB_result (env : Nat → Bool) (s : MState) (e : Ev)
    (i : Nat) (h : s.taskB = .waiting i false ∨ s.taskB = .done (env i)) :
    (step env s e).taskB = .waiting i false ∨
      (step env s e).taskB = .done (env i) := by
  cases e with
  | stepA =>
    have ht := (taskStep_state_tasks env s s.taskA).2
    simp only [step]
    rw [ht]
    exact h
  | stepB =>
    cases h with
    | inl hw =>
      by_cases hres : i < s.resolved
      · have hstep : step env s Ev.stepB =
            { s with taskB := TaskSt.done (env i) } := by
          simp [step, taskStep, hw, hres]
        rw [hstep]
        exact Or.inr rfl
      · have hstep : step env s Ev.stepB =
            { s with taskB := TaskSt.waiting i false } := by
          simp [step, taskStep, hw, hres]
        rw [hstep]
        exact Or.inl rfl
    | inr hd =>
      have hstep : step env s Ev.stepB =
          { s with taskB := TaskSt.done (env i) } := by
        simp [step, taskStep, hd]
      rw [hstep]
      exact Or.inr rfl
  | complete =>
    by_cases hr : s.resolved < s.attempts
    · simp only [step, if_pos hr]
      exact h
    · simp only [step, if_neg hr]
      exact h

lemma run_preserves_taskB_result (env : Nat → Bool) (i : Nat) (l : List Ev)
    (s : MState) (h : s.taskB = .waiting i false ∨ s.taskB = .done (env i)) :
    (l.foldl (step env) s).taskB = .waiting i false ∨
      (l.foldl (step env) s).taskB = .done (env i) := by
  induction l generalizing s with
  | nil => exact h
  | cons e rest ih => exact ih _ (step_preserves_taskB_result env s e i h)

/-- Claim C9: while an authentication attempt is in flight, a second login
caller awaits that same attempt — it starts no new attempt, waits on exactly
the attempt the first caller started, and eventually receives that attempt's
result; at every reachable state at most one authentication attempt is
unresolved; when the starter's await completes, the in-flight marker is
cleared, after which a fresh call starts a new attempt. -/
theorem login_single_flight (env : Nat → Bool) (l1 : List Ev) (s : MState)
    (hs : s = run env l1) :
    (s.attempts ≤ s.resolved + 1) ∧
    (s.taskB = .idle → s.attempts = s.resolved + 1 →
      ((step env s .stepB).attempts = s.attempts ∧
       (step env s .stepB).taskB = .waiting s.resolved false ∧
       (∀ j, s.taskA = .waiting j true → j = s.resolved) ∧
       (∀ l2, (run env (l1 ++ Ev.stepB :: l2)).taskB =
            .waiting s.resolved false ∨
          (run env (l1 ++ Ev.stepB :: l2)).taskB = .done (env s.resolved)))) ∧
    (∀ i, s.taskA = .waiting i true → i < s.resolved →
      (step env s .stepA).inFlight = none) ∧
    (s.taskB = .idle → s.inFlight = none → s.isLoggedIn = false →
      (step env s .stepB).attempts = s.attempts + 1 ∧
      (step env s .stepB).taskB = .waiting s.attempts true) := by
  obtain ⟨h1, h2, h3, h4, h5, h6⟩ := hs ▸ inv_run env l1
  refine ⟨h2, ?_, ?_, ?_⟩
  · intro hidle hfl
    obtain ⟨hIF, hLI⟩ := h3 hfl
    have hstep : (step env s .stepB) =
        { s with taskB := .waiting s.resolved false } := by
      simp [step, taskStep, hidle, hLI, hIF]
    refine ⟨by rw [hstep], by rw [hstep], ?_, ?_⟩
    · intro j hj
      have := h4 j hj
      rw [hIF] at this
      exact (Option.some.inj this).symm
    · intro l2
      have hB : (step env s .stepB).taskB = .waiting s.resolved false := by
        rw [hstep]
      have hrun : run env (l1 ++ Ev.stepB :: l2) =
          l2.foldl (step env) (step env (run env l1) .stepB) := by
        simp only [run, List.foldl_append, List.foldl_cons]
      rw [hrun, ← hs]
      exact run_preserves_taskB_result env s.resolved l2 _ (Or.inl hB)
  · intro i hi hlt
    simp [step, taskStep, hi, hlt]
  · intro hidle hIFn hLIf
    constructor
    · simp [step, taskStep, hidle, hIFn, hLIf]
    · simp [step, taskStep, hidle, hIFn, hLIf]

/-- Witness for C9 at a concrete schedule: A starts an attempt, then B joins
it. -/
theorem login_single_flight_witness :
    ((run envW [Ev.stepA]).attempts ≤ (run envW [Ev.stepA]).resolved + 1) ∧
    ((step envW (run envW [Ev.stepA]) .stepB).attempts =
      (run envW [Ev.stepA]).attempts) ∧
    ((run envW ([Ev.stepA] ++ Ev.stepB :: [Ev.complete, Ev.stepB])).taskB =
        .waiting (run envW [Ev.stepA]).resolved false ∨
      (run envW ([Ev.stepA] ++ Ev.stepB :: [Ev.complete, Ev.stepB])).taskB =
        .done (envW (run envW [Ev.stepA]).resolved)) := by
  have h := login_single_flight envW [Ev.stepA] (run envW [Ev.stepA]) rfl
  have h2 := h.2.1 (by decide) (by decide)
  exact ⟨h.1, h2.1, h2.2.2.2 [Ev.complete, Ev.stepB]⟩

/-- Claim C10: getTimetable derives its lessons from the week containing the
current date, not the week containing the requested date: it calls
getWeekSchedule with no anchor, so the week fetched is the one anchored at
the Monday of `now`; for any requested date the result depends on that date
only through its weekday, while every returned Lesson is labelled with the
requested date and an id derived from it. -/
theorem getTimetable_uses_current_week (env : Int → WeekSchedule)
    (now d d2 : Int) :
    (getTimetable env now d =
      (findDaySchedule (env (getMondayOfWeek now)) (shortDayOf d)).map
        (toLesson d)) ∧
    (∀ l, l ∈ getTimetable env now d →
      l.date = d ∧ l.id = (d, l.lessonNumber)) ∧
    (getDay d2 = getDay d →
      (getTimetable env now d).map stripDate =
        (getTimetable env now d2).map stripDate) := by
  refine ⟨rfl, ?_, ?_⟩
  · intro l hl
    rw [getTimetable] at hl
    obtain ⟨sl, hsl, rfl⟩ := List.mem_map.mp hl
    exact ⟨rfl, rfl⟩
  · intro hdd
    have hsd : shortDayOf d2 = shortDayOf d := by
      rw [shortDayOf, shortDayOf, hdd]
    have hfun : (stripDate ∘ toLesson d) = (stripDate ∘ toLesson d2) :=
      funext fun sl => rfl
    rw [getTimetable, getTimetable, hsd, List.map_map, List.map_map, hfun]

/-- Witness for C10: requesting 1970-01-05 (day 4) and 1970-01-12 (day 11)
during the week of day 4 yields the same lessons up to relabelling, and the
lesson is labelled with the requested date. -/
theorem getTimetable_uses_current_week_witness :
    (exTTLesson.date = 4 ∧ exTTLesson.id = (4, exTTLesson.lessonNumber)) ∧
    ((getTimetable exWeekEnv 4 4).map stripDate =
      (getTimetable exWeekEnv 4 11).map stripDate) := by
  have h := getTimetable_uses_current_week exWeekEnv 4 4 11
  refine ⟨h.2.1 exTTLesson ?_, h.2.2 (by decide)⟩
  have hx : getTimetable exWeekEnv 4 4 = [exTTLesson] := rfl
  rw [hx]
  exact List.Mem.head _

end Schulmanager
